import Mathlib

/-!
Shallow embedding of the ImpactPools Soroban contract
(src/contracts/pool_contract.rs) and proofs about its accounting
state machine.

Modelling choices:
* `Address` is `Nat`; `Symbol` is `String`.
* `i128` values are modelled as unbounded `Int`; Rust's `/` on `i128`
  (truncation toward zero) is `Int.tdiv`.
* Soroban storage is a record: the singleton `PoolInfo` slot, the keyed
  `UserPosition` store (an association list read/written at the first
  matching key), and the `TotalUsers` / `YieldRate` slots that
  `initialize` writes.
* A contract panic aborts the whole transaction; each operation is a
  function returning the post-state, the list of token transfers
  performed, and an `Option` error.  The source performs every storage
  write only after all checks and the token transfer, which the
  embedding mirrors, so "error implies unchanged state" is a theorem,
  not an assumption.
* `user.require_auth()` is an oracle `auth : Address → Bool`; the token
  client's `transfer` is an oracle `tr : Transfer → Bool` deciding
  whether the transfer succeeds; `env.current_contract_address()` is a
  parameter `self`.
* Panics are mapped to the error taxonomy of the specification:
  "Pool already initialized" ↦ AlreadyInitialized, "Pool not
  initialized" ↦ NotInitialized, "Donation percentage cannot exceed
  100%" ↦ InvalidParameter, positive-amount panics ↦ InvalidAmount,
  "Pool is not active" ↦ PoolPaused, "Insufficient balance for
  withdrawal" ↦ InsufficientBalance, creator-only and auth panics ↦
  Unauthorized, token-transfer failure ↦ TransferFailed, "User has no
  deposits" ↦ NoDeposits.
-/

namespace ImpactPools

abbrev Address := Nat

abbrev Sym := String

/-- Mirror of `PoolInfo` from `pool_contract.rs` (lines 12-21).  Note that
the source structure has no asset/token field. -/
structure PoolInfo where
  name : Sym
  charity : Address
  donation_percentage : Nat
  creator : Address
  total_deposited : Int
  total_yield : Int
  total_donated : Int
  is_active : Bool
deriving Repr, DecidableEq

/-- Mirror of `UserPosition` from `pool_contract.rs` (lines 25-29). -/
structure UserPosition where
  deposited : Int
  withdrawn : Int
  yield_earned : Int
deriving Repr, DecidableEq

/-- Error taxonomy of the specification, plus `NoDeposits` for the
distinct "User has no deposits" panic in `withdraw`. -/
inductive PoolError where
  | AlreadyInitialized
  | NotInitialized
  | InvalidParameter
  | InvalidAmount
  | PoolPaused
  | InsufficientBalance
  | Unauthorized
  | TransferFailed
  | NoDeposits
deriving Repr, DecidableEq

/-- One token-client `transfer(from, to, amount)` call on a given token
contract. -/
structure Transfer where
  token : Address
  source : Address
  dest : Address
  amount : Int
deriving Repr, DecidableEq

/-- The contract's storage: the `PoolInfo` singleton, the keyed
`UserPosition` store, and the `TotalUsers` / `YieldRate` slots. -/
structure ContractState where
  pool : Option PoolInfo
  positions : List (Address × UserPosition)
  total_users : Option Nat
  yield_rate : Option Int
deriving Repr, DecidableEq

/-- Storage before any call: nothing stored. -/
def emptyState : ContractState := ⟨none, [], none, none⟩

/-- Read the keyed store at `u` (first matching key). -/
def getPos : List (Address × UserPosition) → Address → Option UserPosition
  | [], _ => none
  | (k, v) :: rest, u => if k = u then some v else getPos rest u

/-- Write the keyed store at `u`: replace the first matching entry, or
append a new entry when the key is absent. -/
def setPos : List (Address × UserPosition) → Address → UserPosition →
    List (Address × UserPosition)
  | [], u, v => [(u, v)]
  | (k, w) :: rest, u, v =>
      if k = u then (u, v) :: rest else (k, w) :: setPos rest u v

/-- Outcome of one invocation: post-state, transfers performed, error. -/
structure OpResult where
  state : ContractState
  transfers : List Transfer
  err : Option PoolError
deriving Repr, DecidableEq

/-- Mirror of `initialize` (pool_contract.rs lines 49-81).  The
`token_address` argument is accepted and ignored, exactly as in the
source. -/
def init_pool (s : ContractState) (name : Sym) (charity : Address)
    (donation_percentage : Nat) (creator : Address) (token_address : Address) :
    OpResult :=
  if s.pool.isSome then ⟨s, [], some .AlreadyInitialized⟩
  else if donation_percentage > 100 then ⟨s, [], some .InvalidParameter⟩
  else
    ⟨{ s with
        pool := some ⟨name, charity, donation_percentage, creator, 0, 0, 0, true⟩,
        total_users := some 0,
        yield_rate := some 50 },
      [], none⟩

/-- Mirror of `deposit` (pool_contract.rs lines 84-126). -/
def deposit (auth : Address → Bool) (tr : Transfer → Bool) (self : Address)
    (s : ContractState) (user : Address) (amount : Int)
    (token_address : Address) : OpResult :=
  if !auth user then ⟨s, [], some .Unauthorized⟩
  else if amount ≤ 0 then ⟨s, [], some .InvalidAmount⟩
  else
    match s.pool with
    | none => ⟨s, [], some .NotInitialized⟩
    | some pool_info =>
        if !pool_info.is_active then ⟨s, [], some .PoolPaused⟩
        else
          let user_position := (getPos s.positions user).getD ⟨0, 0, 0⟩
          let t : Transfer := ⟨token_address, user, self, amount⟩
          if !tr t then ⟨s, [], some .TransferFailed⟩
          else
            ⟨{ s with
                positions := setPos s.positions user
                  { user_position with
                      deposited := user_position.deposited + amount },
                pool := some { pool_info with
                  total_deposited := pool_info.total_deposited + amount } },
              [t], none⟩

/-- Mirror of `withdraw` (pool_contract.rs lines 129-169).  The
available balance it checks is `deposited - withdrawn`, without
`yield_earned`. -/
def withdraw (auth : Address → Bool) (tr : Transfer → Bool) (self : Address)
    (s : ContractState) (user : Address) (amount : Int)
    (token_address : Address) : OpResult :=
  if !auth user then ⟨s, [], some .Unauthorized⟩
  else if amount ≤ 0 then ⟨s, [], some .InvalidAmount⟩
  else
    match getPos s.positions user with
    | none => ⟨s, [], some .NoDeposits⟩
    | some user_position =>
        let available_balance :=
          user_position.deposited - user_position.withdrawn
        if amount > available_balance then ⟨s, [], some .InsufficientBalance⟩
        else
          match s.pool with
          | none => ⟨s, [], some .NotInitialized⟩
          | some pool_info =>
              let t : Transfer := ⟨token_address, self, user, amount⟩
              if !tr t then ⟨s, [], some .TransferFailed⟩
              else
                ⟨{ s with
                    positions := setPos s.positions user
                      { user_position with
                          withdrawn := user_position.withdrawn + amount },
                    pool := some { pool_info with
                      total_deposited := pool_info.total_deposited - amount } },
                  [t], none⟩

/-- Mirror of `distribute_yield` (pool_contract.rs lines 172-200).
Rust `i128` division truncates toward zero, hence `Int.tdiv`.  The
source performs the charity transfer only when the donation is
positive, and validates nothing about `yield_amount`. -/
def distribute_yield (auth : Address → Bool) (tr : Transfer → Bool)
    (self : Address) (s : ContractState) (admin : Address)
    (yield_amount : Int) (token_address : Address) : OpResult :=
  if !auth admin then ⟨s, [], some .Unauthorized⟩
  else
    match s.pool with
    | none => ⟨s, [], some .NotInitialized⟩
    | some pool_info =>
        let donation_amount :=
          Int.tdiv (yield_amount * (pool_info.donation_percentage : Int)) 100
        let remaining_yield := yield_amount - donation_amount
        let pool_info2 := { pool_info with
          total_yield := pool_info.total_yield + remaining_yield,
          total_donated := pool_info.total_donated + donation_amount }
        if 0 < donation_amount then
          let t : Transfer := ⟨token_address, self, pool_info.charity, donation_amount⟩
          if !tr t then ⟨s, [], some .TransferFailed⟩
          else ⟨{ s with pool := some pool_info2 }, [t], none⟩
        else ⟨{ s with pool := some pool_info2 }, [], none⟩

/-- Mirror of `get_user_position` (pool_contract.rs lines 223-231). -/
def get_user_position (s : ContractState) (user : Address) : UserPosition :=
  (getPos s.positions user).getD ⟨0, 0, 0⟩

/-- Mirror of `get_user_balance` (pool_contract.rs lines 203-213). -/
def get_user_balance (s : ContractState) (user : Address) : Int :=
  let user_position := (getPos s.positions user).getD ⟨0, 0, 0⟩
  user_position.deposited - user_position.withdrawn + user_position.yield_earned

/-- Mirror of `get_pool_info` (pool_contract.rs lines 216-220). -/
def get_pool_info (s : ContractState) : Option PoolInfo := s.pool

/-- Mirror of `pause_pool` (pool_contract.rs lines 234-250). -/
def pause_pool (auth : Address → Bool) (s : ContractState) (admin : Address) :
    OpResult :=
  if !auth admin then ⟨s, [], some .Unauthorized⟩
  else
    match s.pool with
    | none => ⟨s, [], some .NotInitialized⟩
    | some pool_info =>
        if admin ≠ pool_info.creator then ⟨s, [], some .Unauthorized⟩
        else ⟨{ s with pool := some { pool_info with is_active := false } }, [], none⟩

/-- Mirror of `resume_pool` (pool_contract.rs lines 253-269). -/
def resume_pool (auth : Address → Bool) (s : ContractState) (admin : Address) :
    OpResult :=
  if !auth admin then ⟨s, [], some .Unauthorized⟩
  else
    match s.pool with
    | none => ⟨s, [], some .NotInitialized⟩
    | some pool_info =>
        if admin ≠ pool_info.creator then ⟨s, [], some .Unauthorized⟩
        else ⟨{ s with pool := some { pool_info with is_active := true } }, [], none⟩

/-- One successful state transition of the contract: some operation,
with some arguments and oracles, that returns without error. -/
inductive Step : ContractState → ContractState → Prop where
  | ofInit : ∀ s n c dp cr tok,
      (init_pool s n c dp cr tok).err = none →
      Step s (init_pool s n c dp cr tok).state
  | ofDeposit : ∀ auth tr self s u a tok,
      (deposit auth tr self s u a tok).err = none →
      Step s (deposit auth tr self s u a tok).state
  | ofWithdraw : ∀ auth tr self s u a tok,
      (withdraw auth tr self s u a tok).err = none →
      Step s (withdraw auth tr self s u a tok).state
  | ofDistribute : ∀ auth tr self s adm y tok,
      (distribute_yield auth tr self s adm y tok).err = none →
      Step s (distribute_yield auth tr self s adm y tok).state
  | ofPause : ∀ auth s adm,
      (pause_pool auth s adm).err = none →
      Step s (pause_pool auth s adm).state
  | ofResume : ∀ auth s adm,
      (resume_pool auth s adm).err = none →
      Step s (resume_pool auth s adm).state

/-- States reachable from a successful `initialize` on empty storage by
any sequence of successful operations. -/
inductive Reachable : ContractState → Prop where
  | base : ∀ n c dp cr tok,
      (init_pool emptyState n c dp cr tok).err = none →
      Reachable (init_pool emptyState n c dp cr tok).state
  | step : ∀ s s2, Reachable s → Step s s2 → Reachable s2

/-- Net principal recorded across the keyed store:
sum of `deposited - withdrawn` over all entries. -/
def sumNet : List (Address × UserPosition) → Int
  | [] => 0
  | (_, p) :: rest => (p.deposited - p.withdrawn) + sumNet rest

/-- Authorization oracle that authorizes everybody (mock_all_auths). -/
def authAll : Address → Bool := fun _ => true

/-- Transfer oracle under which every token transfer succeeds. -/
def trAll : Transfer → Bool := fun _ => true

/-- Pool fixture: the spec's end-to-end scenario, 50 percent donation,
creator 2, charity 7, initialized with token address 9. -/
def s50 : ContractState := (init_pool emptyState "POOL" 7 50 2 9).state

/-- The `PoolInfo` record stored in `s50`. -/
def pool50 : PoolInfo := ⟨"POOL", 7, 50, 2, 0, 0, 0, true⟩

/-- The fixture pool after the creator pauses it. -/
def s50p : ContractState := (pause_pool authAll s50 2).state

/-- The fixture pool after user 1 deposits 10 (token 9). -/
def sW : ContractState := (deposit authAll trAll 0 s50 1 10 9).state

/-- The fixture pool after the admin distributes a yield of -100:
the state the code reaches on an unvalidated negative yield amount. -/
def sNeg : ContractState := (distribute_yield authAll trAll 0 s50 2 (-100) 9).state

/-- The `PoolInfo` record stored in `sNeg`. -/
def c3pool : PoolInfo := ⟨"POOL", 7, 50, 2, 0, -50, -50, true⟩

example : s50 = ⟨some pool50, [], some 0, some 50⟩ := by decide

example : (deposit authAll trAll 0 s50 5 1000 9).err = none := by decide

example : get_user_balance (deposit authAll trAll 0 s50 5 1000 9).state 5 = 1000 := by
  decide

example :
    get_user_balance
      (withdraw authAll trAll 0 (deposit authAll trAll 0 s50 5 1000 9).state
        5 300 9).state 5 = 700 := by decide

/-! Keyed-store lemmas. -/

lemma getPos_setPos_self (ps : List (Address × UserPosition)) (u : Address)
    (v : UserPosition) : getPos (setPos ps u v) u = some v := by
  induction ps with
  | nil => simp [setPos, getPos]
  | cons hd t ih =>
      obtain ⟨k, w⟩ := hd
      by_cases hk : k = u <;> simp [setPos, getPos, hk, ih]

lemma sumNet_setPos_none (ps : List (Address × UserPosition)) (u : Address)
    (v : UserPosition) (h : getPos ps u = none) :
    sumNet (setPos ps u v) = sumNet ps + (v.deposited - v.withdrawn) := by
  induction ps with
  | nil => simp [setPos, sumNet]
  | cons hd t ih =>
      obtain ⟨k, w⟩ := hd
      by_cases hk : k = u
      · simp [getPos, hk] at h
      · simp only [getPos, hk, if_false] at h
        simp [setPos, hk, sumNet, ih h]
        ring

lemma sumNet_setPos_some (ps : List (Address × UserPosition)) (u : Address)
    (v w : UserPosition) (h : getPos ps u = some w) :
    sumNet (setPos ps u v) =
      sumNet ps - (w.deposited - w.withdrawn) + (v.deposited - v.withdrawn) := by
  induction ps with
  | nil => simp [getPos] at h
  | cons hd t ih =>
      obtain ⟨k, x⟩ := hd
      by_cases hk : k = u
      · simp only [getPos, hk, if_true] at h
        cases h
        simp [setPos, hk, sumNet]
        ring
      · simp only [getPos, hk, if_false] at h
        simp [setPos, hk, sumNet, ih h]
        ring

/-! Characterizations of each operation: the exact result on success,
and the fact that any failure returns the input state with no
transfers.  These mirror the branch structure of the source. -/

lemma init_pool_run (s : ContractState) (n : Sym) (c : Address) (dp : Nat)
    (cr tok : Address) (h : (init_pool s n c dp cr tok).err = none) :
    s.pool = none ∧ dp ≤ 100 ∧
    init_pool s n c dp cr tok =
      ⟨{ s with
          pool := some ⟨n, c, dp, cr, 0, 0, 0, true⟩,
          total_users := some 0,
          yield_rate := some 50 }, [], none⟩ := by
  cases hp : s.pool with
  | some p => unfold init_pool at h; simp [hp] at h
  | none =>
      by_cases hdp : dp > 100
      · unfold init_pool at h; simp [hp, hdp] at h
      · exact ⟨rfl, by omega, by unfold init_pool; simp [hp, hdp]⟩

lemma init_pool_err_state (s : ContractState) (n : Sym) (c : Address) (dp : Nat)
    (cr tok : Address) (h : (init_pool s n c dp cr tok).err ≠ none) :
    (init_pool s n c dp cr tok).state = s ∧
    (init_pool s n c dp cr tok).transfers = [] := by
  by_cases hp : s.pool.isSome
  · unfold init_pool; simp [hp]
  by_cases hdp : dp > 100
  · unfold init_pool; simp [hp, hdp]
  exfalso
  apply h
  unfold init_pool; simp [hp, hdp]

lemma deposit_run (auth : Address → Bool) (tr : Transfer → Bool) (self : Address)
    (s : ContractState) (u : Address) (a : Int) (tok : Address)
    (h : (deposit auth tr self s u a tok).err = none) :
    ∃ p, auth u = true ∧ 0 < a ∧ s.pool = some p ∧ p.is_active = true ∧
      tr ⟨tok, u, self, a⟩ = true ∧
      deposit auth tr self s u a tok =
        ⟨{ s with
            positions := setPos s.positions u
              ⟨(get_user_position s u).deposited + a,
                (get_user_position s u).withdrawn,
                (get_user_position s u).yield_earned⟩,
            pool := some { p with total_deposited := p.total_deposited + a } },
          [⟨tok, u, self, a⟩], none⟩ := by
  by_cases hauth : auth u = true
  case neg => unfold deposit at h; simp [hauth] at h
  by_cases ha : a ≤ 0
  · unfold deposit at h; simp [hauth, ha] at h
  cases hp : s.pool with
  | none => unfold deposit at h; simp [hauth, ha, hp] at h
  | some p =>
      by_cases hact : p.is_active = true
      case neg => unfold deposit at h; simp [hauth, ha, hp, hact] at h
      by_cases htr : tr ⟨tok, u, self, a⟩ = true
      case neg => unfold deposit at h; simp [hauth, ha, hp, hact, htr] at h
      exact ⟨p, hauth, by omega, rfl, hact, htr,
        by unfold deposit get_user_position; simp [hauth, ha, hp, hact, htr]⟩

lemma deposit_err_state (auth : Address → Bool) (tr : Transfer → Bool)
    (self : Address) (s : ContractState) (u : Address) (a : Int) (tok : Address)
    (h : (deposit auth tr self s u a tok).err ≠ none) :
    (deposit auth tr self s u a tok).state = s ∧
    (deposit auth tr self s u a tok).transfers = [] := by
  by_cases hauth : auth u = true
  case neg => unfold deposit; simp [hauth]
  by_cases ha : a ≤ 0
  · unfold deposit; simp [hauth, ha]
  cases hp : s.pool with
  | none => unfold deposit; simp [hauth, ha, hp]
  | some p =>
      by_cases hact : p.is_active = true
      case neg => unfold deposit; simp [hauth, ha, hp, hact]
      by_cases htr : tr ⟨tok, u, self, a⟩ = true
      case neg => unfold deposit; simp [hauth, ha, hp, hact, htr]
      exfalso
      apply h
      unfold deposit; simp [hauth, ha, hp, hact, htr]

lemma withdraw_run (auth : Address → Bool) (tr : Transfer → Bool)
    (self : Address) (s : ContractState) (u : Address) (a : Int) (tok : Address)
    (h : (withdraw auth tr self s u a tok).err = none) :
    ∃ p pi, auth u = true ∧ 0 < a ∧ getPos s.positions u = some p ∧
      a ≤ p.deposited - p.withdrawn ∧ s.pool = some pi ∧
      tr ⟨tok, self, u, a⟩ = true ∧
      withdraw auth tr self s u a tok =
        ⟨{ s with
            positions := setPos s.positions u
              ⟨p.deposited, p.withdrawn + a, p.yield_earned⟩,
            pool := some { pi with total_deposited := pi.total_deposited - a } },
          [⟨tok, self, u, a⟩], none⟩ := by
  by_cases hauth : auth u = true
  case neg => unfold withdraw at h; simp [hauth] at h
  by_cases ha : a ≤ 0
  · unfold withdraw at h; simp [hauth, ha] at h
  cases hq : getPos s.positions u with
  | none => unfold withdraw at h; simp [hauth, ha, hq] at h
  | some p =>
      by_cases hb : a > p.deposited - p.withdrawn
      · unfold withdraw at h; simp [hauth, ha, hq, hb] at h
      cases hp : s.pool with
      | none => unfold withdraw at h; simp [hauth, ha, hq, hb, hp] at h
      | some pi =>
          by_cases htr : tr ⟨tok, self, u, a⟩ = true
          case neg => unfold withdraw at h; simp [hauth, ha, hq, hb, hp, htr] at h
          exact ⟨p, pi, hauth, by omega, rfl, by omega, rfl, htr,
            by unfold withdraw; simp [hauth, ha, hq, hb, hp, htr]⟩

lemma withdraw_err_state (auth : Address → Bool) (tr : Transfer → Bool)
    (self : Address) (s : ContractState) (u : Address) (a : Int) (tok : Address)
    (h : (withdraw auth tr self s u a tok).err ≠ none) :
    (withdraw auth tr self s u a tok).state = s ∧
    (withdraw auth tr self s u a tok).transfers = [] := by
  by_cases hauth : auth u = true
  case neg => unfold withdraw; simp [hauth]
  by_cases ha : a ≤ 0
  · unfold withdraw; simp [hauth, ha]
  cases hq : getPos s.positions u with
  | none => unfold withdraw; simp [hauth, ha, hq]
  | some p =>
      by_cases hb : a > p.deposited - p.withdrawn
      · unfold withdraw; simp [hauth, ha, hq, hb]
      cases hp : s.pool with
      | none => unfold withdraw; simp [hauth, ha, hq, hb, hp]
      | some pi =>
          by_cases htr : tr ⟨tok, self, u, a⟩ = true
          case neg => unfold withdraw; simp [hauth, ha, hq, hb, hp, htr]
          exfalso
          apply h
          unfold withdraw; simp [hauth, ha, hq, hb, hp, htr]

lemma distribute_run (auth : Address → Bool) (tr : Transfer → Bool)
    (self : Address) (s : ContractState) (adm : Address) (y : Int)
    (tok : Address) (h : (distribute_yield auth tr self s adm y tok).err = none) :
    ∃ p, auth adm = true ∧ s.pool = some p ∧
      (distribute_yield auth tr self s adm y tok).state =
        { s with
            pool := some { p with
              total_yield := p.total_yield +
                (y - Int.tdiv (y * (p.donation_percentage : Int)) 100),
              total_donated := p.total_donated +
                Int.tdiv (y * (p.donation_percentage : Int)) 100 } } := by
  by_cases hauth : auth adm = true
  case neg => unfold distribute_yield at h; simp [hauth] at h
  cases hp : s.pool with
  | none => unfold distribute_yield at h; simp [hauth, hp] at h
  | some p =>
      refine ⟨p, hauth, rfl, ?_⟩
      by_cases hd : 0 < Int.tdiv (y * (p.donation_percentage : Int)) 100
      · by_cases htr :
            tr ⟨tok, self, p.charity,
              Int.tdiv (y * (p.donation_percentage : Int)) 100⟩ = true
        · unfold distribute_yield; simp [hauth, hp, hd, htr]
        · exfalso
          unfold distribute_yield at h; simp [hauth, hp, hd, htr] at h
      · unfold distribute_yield; simp [hauth, hp, hd]

lemma distribute_err_state (auth : Address → Bool) (tr : Transfer → Bool)
    (self : Address) (s : ContractState) (adm : Address) (y : Int)
    (tok : Address) (h : (distribute_yield auth tr self s adm y tok).err ≠ none) :
    (distribute_yield auth tr self s adm y tok).state = s ∧
    (distribute_yield auth tr self s adm y tok).transfers = [] := by
  by_cases hauth : auth adm = true
  case neg => unfold distribute_yield; simp [hauth]
  cases hp : s.pool with
  | none => unfold distribute_yield; simp [hauth, hp]
  | some p =>
      by_cases hd : 0 < Int.tdiv (y * (p.donation_percentage : Int)) 100
      · by_cases htr :
            tr ⟨tok, self, p.charity,
              Int.tdiv (y * (p.donation_percentage : Int)) 100⟩ = true
        · exfalso
          apply h
          unfold distribute_yield; simp [hauth, hp, hd, htr]
        · unfold distribute_yield; simp [hauth, hp, hd, htr]
      · exfalso
        apply h
        unfold distribute_yield; simp [hauth, hp, hd]

lemma pause_run (auth : Address → Bool) (s : ContractState) (adm : Address)
    (h : (pause_pool auth s adm).err = none) :
    ∃ p, auth adm = true ∧ s.pool = some p ∧ adm = p.creator ∧
      pause_pool auth s adm =
        ⟨{ s with pool := some { p with is_active := false } }, [], none⟩ := by
  by_cases hauth : auth adm = true
  case neg => unfold pause_pool at h; simp [hauth] at h
  cases hp : s.pool with
  | none => unfold pause_pool at h; simp [hauth, hp] at h
  | some p =>
      by_cases hcr : adm = p.creator
      · subst hcr
        exact ⟨p, hauth, rfl, rfl, by unfold pause_pool; simp [hauth, hp]⟩
      · unfold pause_pool at h; simp [hauth, hp, hcr] at h

lemma pause_err_state (auth : Address → Bool) (s : ContractState) (adm : Address)
    (h : (pause_pool auth s adm).err ≠ none) :
    (pause_pool auth s adm).state = s ∧ (pause_pool auth s adm).transfers = [] := by
  by_cases hauth : auth adm = true
  case neg => unfold pause_pool; simp [hauth]
  cases hp : s.pool with
  | none => unfold pause_pool; simp [hauth, hp]
  | some p =>
      by_cases hcr : adm = p.creator
      · exfalso
        apply h
        subst hcr
        unfold pause_pool; simp [hauth, hp]
      · unfold pause_pool; simp [hauth, hp, hcr]

lemma resume_run (auth : Address → Bool) (s : ContractState) (adm : Address)
    (h : (resume_pool auth s adm).err = none) :
    ∃ p, auth adm = true ∧ s.pool = some p ∧ adm = p.creator ∧
      resume_pool auth s adm =
        ⟨{ s with pool := some { p with is_active := true } }, [], none⟩ := by
  by_cases hauth : auth adm = true
  case neg => unfold resume_pool at h; simp [hauth] at h
  cases hp : s.pool with
  | none => unfold resume_pool at h; simp [hauth, hp] at h
  | some p =>
      by_cases hcr : adm = p.creator
      · subst hcr
        exact ⟨p, hauth, rfl, rfl, by unfold resume_pool; simp [hauth, hp]⟩
      · unfold resume_pool at h; simp [hauth, hp, hcr] at h

lemma resume_err_state (auth : Address → Bool) (s : ContractState) (adm : Address)
    (h : (resume_pool auth s adm).err ≠ none) :
    (resume_pool auth s adm).state = s ∧ (resume_pool auth s adm).transfers = [] := by
  by_cases hauth : auth adm = true
  case neg => unfold resume_pool; simp [hauth]
  cases hp : s.pool with
  | none => unfold resume_pool; simp [hauth, hp]
  | some p =>
      by_cases hcr : adm = p.creator
      · exfalso
        apply h
        subst hcr
        unfold resume_pool; simp [hauth, hp]
      · unfold resume_pool; simp [hauth, hp, hcr]

lemma tdiv_eq_fdiv_of_nonneg {a b : Int} (ha : 0 ≤ a) (hb : 0 ≤ b) :
    Int.tdiv a b = Int.fdiv a b := (Int.fdiv_eq_tdiv ha hb).symm

/-! Claim theorems. -/

/-- C7: `initialize` is exactly-once.  On any state whose `PoolInfo`
record already exists, a further call — with any arguments — returns
AlreadyInitialized, performs no transfer, and leaves every stored
record (pool, positions, total_users, yield_rate) unchanged. -/
theorem C7_init_exactly_once (s : ContractState) (n : Sym) (c : Address)
    (dp : Nat) (cr tok : Address) (p : PoolInfo) (hp : s.pool = some p) :
    init_pool s n c dp cr tok = ⟨s, [], some .AlreadyInitialized⟩ := by
  unfold init_pool
  simp [hp]

/-- Witness for C7: re-running the constructor on the initialized
fixture pool returns AlreadyInitialized and the unchanged state. -/
theorem C7_witness :
    init_pool s50 "X" 1 99 3 4 = ⟨s50, [], some .AlreadyInitialized⟩ :=
  C7_init_exactly_once s50 "X" 1 99 3 4 pool50 rfl

/-- C5: for every authorized `deposit(user, amount)` call, a
non-positive amount fails with InvalidAmount and an inactive pool
fails with PoolPaused; in both failure cases the result is the input
state untouched and no transfer is performed. -/
theorem C5_deposit_validation (auth : Address → Bool) (tr : Transfer → Bool)
    (self : Address) (s : ContractState) (u : Address) (a : Int)
    (tok : Address) (hauth : auth u = true) :
    (a ≤ 0 → deposit auth tr self s u a tok = ⟨s, [], some .InvalidAmount⟩) ∧
    (∀ p, s.pool = some p → p.is_active = false → 0 < a →
      deposit auth tr self s u a tok = ⟨s, [], some .PoolPaused⟩) := by
  constructor
  · intro ha
    unfold deposit
    simp [hauth, ha]
  · intro p hp hact ha
    have ha2 : ¬ a ≤ 0 := by omega
    unfold deposit
    simp [hauth, hp, hact, ha2]

/-- Witness for C5: a deposit of -3 on the fixture pool fails with
InvalidAmount, and a deposit of 5 on the paused fixture fails with
PoolPaused, both leaving the state as it was. -/
theorem C5_witness :
    deposit authAll trAll 0 s50 1 (-3) 9 = ⟨s50, [], some .InvalidAmount⟩ ∧
    deposit authAll trAll 0 s50p 1 5 9 = ⟨s50p, [], some .PoolPaused⟩ :=
  ⟨(C5_deposit_validation authAll trAll 0 s50 1 (-3) 9 rfl).1 (by decide),
   (C5_deposit_validation authAll trAll 0 s50p 1 5 9 rfl).2
     ⟨"POOL", 7, 50, 2, 0, 0, 0, false⟩ rfl rfl (by decide)⟩

/-- C6: every operation is atomic — whenever any of the six operations
returns an error (failed authorization, failed validation, or failed
asset transfer), the resulting storage equals the input storage, so
`PoolInfo` and every `UserPosition` are exactly as before the call. -/
theorem C6_atomicity (auth : Address → Bool) (tr : Transfer → Bool)
    (self : Address) (s : ContractState) (n : Sym) (c : Address) (dp : Nat)
    (cr tok u adm : Address) (a y : Int) :
    ((init_pool s n c dp cr tok).err ≠ none →
      (init_pool s n c dp cr tok).state = s) ∧
    ((deposit auth tr self s u a tok).err ≠ none →
      (deposit auth tr self s u a tok).state = s) ∧
    ((withdraw auth tr self s u a tok).err ≠ none →
      (withdraw auth tr self s u a tok).state = s) ∧
    ((distribute_yield auth tr self s adm y tok).err ≠ none →
      (distribute_yield auth tr self s adm y tok).state = s) ∧
    ((pause_pool auth s adm).err ≠ none → (pause_pool auth s adm).state = s) ∧
    ((resume_pool auth s adm).err ≠ none → (resume_pool auth s adm).state = s) :=
  ⟨fun h => (init_pool_err_state s n c dp cr tok h).1,
   fun h => (deposit_err_state auth tr self s u a tok h).1,
   fun h => (withdraw_err_state auth tr self s u a tok h).1,
   fun h => (distribute_err_state auth tr self s adm y tok h).1,
   fun h => (pause_err_state auth s adm h).1,
   fun h => (resume_err_state auth s adm h).1⟩

/-- Witness for C6: with a transfer oracle that always fails, each of
the six operations fails on a concrete input and returns the fixture
state unchanged. -/
theorem C6_witness :
    (init_pool s50 "X" 1 10 3 4).state = s50 ∧
    (deposit authAll (fun _ => false) 0 s50 1 (-5) 4).state = s50 ∧
    (withdraw authAll (fun _ => false) 0 s50 1 (-5) 4).state = s50 ∧
    (distribute_yield authAll (fun _ => false) 0 s50 3 10 4).state = s50 ∧
    (pause_pool authAll s50 3).state = s50 ∧
    (resume_pool authAll s50 3).state = s50 := by
  obtain ⟨h1, h2, h3, h4, h5, h6⟩ :=
    C6_atomicity authAll (fun _ => false) 0 s50 "X" 1 10 3 4 1 3 (-5) 10
  exact ⟨h1 (by decide), h2 (by decide), h3 (by decide), h4 (by decide),
    h5 (by decide), h6 (by decide)⟩

/-- C3 exhibits the code bug: from a fresh initialization with donation
percentage 50, the unvalidated call `distribute_yield(admin, -100)`
succeeds and drives both `total_yield` and `total_donated` to -50,
violating the claimed "aggregates never negative" invariant in a
reachable state.  (The other two parts of the claim do hold: the
percentage is range-checked at initialization and `is_active` is only
written behind the creator check.) -/
theorem C3_negative_aggregates_code_bug :
    Reachable sNeg ∧ sNeg.pool = some c3pool ∧
    c3pool.total_yield < 0 ∧ c3pool.total_donated < 0 := by
  refine ⟨?_, by decide, by decide, by decide⟩
  exact Reachable.step s50 sNeg
    (Reachable.base "POOL" 7 50 2 9 (by decide))
    (Step.ofDistribute authAll trAll 0 s50 2 (-100) 9 (by decide))

/-- C4 exhibits the code bug: the token address passed to the
constructor is ignored (initializing with token 1 and with token 9
yields identical results), and a later deposit and withdraw each move
value in whatever token address that call supplies (here 2 and then 3),
so no single recorded pool asset governs the transfers. -/
theorem C4_per_call_token_code_bug :
    init_pool emptyState "POOL" 7 50 2 1 = init_pool emptyState "POOL" 7 50 2 9 ∧
    (deposit authAll trAll 0 s50 5 100 2).err = none ∧
    (deposit authAll trAll 0 s50 5 100 2).transfers = [⟨2, 5, 0, 100⟩] ∧
    (withdraw authAll trAll 0 (deposit authAll trAll 0 s50 5 100 2).state
      5 40 3).err = none ∧
    (withdraw authAll trAll 0 (deposit authAll trAll 0 s50 5 100 2).state
      5 40 3).transfers = [⟨3, 0, 5, 40⟩] := by
  decide

/-- C1 counterexample: in the freshly initialized pool, `withdraw(1, 0)`
satisfies the claim's success condition (0 ≤ available balance as
returned by `get_user_balance`) yet fails, and with InvalidAmount, not
InsufficientBalance; and `withdraw(1, 5)` with no position fails with
the distinct NoDeposits error, not InsufficientBalance. -/
theorem C1_counterexample :
    ((0 : Int) ≤ get_user_balance s50 1 ∧
      (withdraw authAll trAll 0 s50 1 0 9).err = some .InvalidAmount) ∧
    (get_user_balance s50 1 < 5 ∧
      (withdraw authAll trAll 0 s50 1 5 9).err = some .NoDeposits ∧
      (withdraw authAll trAll 0 s50 1 5 9).err ≠ some .InsufficientBalance) := by
  decide

/-- C2 counterexample: with donation percentage 50, the call
`distribute_yield(admin, -1)` leaves `total_donated` at 0 — the Rust
division truncates -50/100 toward zero — whereas the claimed
`floor(Y*p/100)` is -1; so the donation does not equal the floor. -/
theorem C2_counterexample :
    (distribute_yield authAll trAll 0 s50 2 (-1) 9).err = none ∧
    (distribute_yield authAll trAll 0 s50 2 (-1) 9).state.pool =
      some ⟨"POOL", 7, 50, 2, 0, -1, 0, true⟩ ∧
    pool50.total_donated + Int.fdiv ((-1) * (pool50.donation_percentage : Int)) 100
      = -1 := by
  decide

/-- Exhaustive case analysis of an authorized `withdraw` call, following
the branch order of the source: a non-positive amount, a missing
position, an insufficient `deposited - withdrawn`, and otherwise an
uninitialized pool, a failed transfer, or success. -/
lemma withdraw_cases (auth : Address → Bool) (tr : Transfer → Bool)
    (self : Address) (s : ContractState) (u : Address) (a : Int)
    (tok : Address) (hauth : auth u = true) :
    (a ≤ 0 ∧ withdraw auth tr self s u a tok = ⟨s, [], some .InvalidAmount⟩) ∨
    (0 < a ∧ getPos s.positions u = none ∧
      withdraw auth tr self s u a tok = ⟨s, [], some .NoDeposits⟩) ∨
    (0 < a ∧ (∃ p, getPos s.positions u = some p ∧ p.deposited - p.withdrawn < a) ∧
      withdraw auth tr self s u a tok = ⟨s, [], some .InsufficientBalance⟩) ∨
    (0 < a ∧ (∃ p, getPos s.positions u = some p ∧ a ≤ p.deposited - p.withdrawn) ∧
      ((withdraw auth tr self s u a tok).err = some .NotInitialized ∨
       (withdraw auth tr self s u a tok).err = some .TransferFailed ∨
       (withdraw auth tr self s u a tok).err = none)) := by
  by_cases ha : a ≤ 0
  · exact Or.inl ⟨ha, by unfold withdraw; simp [hauth, ha]⟩
  cases hq : getPos s.positions u with
  | none =>
      exact Or.inr (Or.inl ⟨by omega, rfl, by unfold withdraw; simp [hauth, ha, hq]⟩)
  | some p =>
      by_cases hlt : a > p.deposited - p.withdrawn
      · exact Or.inr (Or.inr (Or.inl ⟨by omega, ⟨p, rfl, by omega⟩,
          by unfold withdraw; simp [hauth, ha, hq, hlt]⟩))
      · refine Or.inr (Or.inr (Or.inr ⟨by omega, ⟨p, rfl, by omega⟩, ?_⟩))
        cases hp : s.pool with
        | none => exact Or.inl (by unfold withdraw; simp [hauth, ha, hq, hlt, hp])
        | some pi =>
            by_cases htr : tr ⟨tok, self, u, a⟩ = true
            · exact Or.inr (Or.inr
                (by unfold withdraw; simp [hauth, ha, hq, hlt, hp, htr]))
            · exact Or.inr (Or.inl
                (by unfold withdraw; simp [hauth, ha, hq, hlt, hp, htr]))

/-- C1 (amended): an authorized `withdraw(u, a)` succeeds iff `a > 0`,
a position for `u` exists, `a` is at most that position's
`deposited - withdrawn` (the code does not consult `yield_earned`), the
pool is initialized and the token transfer succeeds; on success
`withdrawn` grows by exactly `a` and `get_user_balance(u)` shrinks by
exactly `a`; on failure the state is unchanged; the error is
InsufficientBalance exactly when the amount is positive and an existing
position has `deposited - withdrawn < a`; the error is InvalidAmount
exactly when `a ≤ 0`; and the error is NoDeposits exactly when the
amount is positive and no position exists. -/
theorem C1_withdraw_spec (auth : Address → Bool) (tr : Transfer → Bool)
    (self : Address) (s : ContractState) (u : Address) (a : Int)
    (tok : Address) (hauth : auth u = true) :
    ((withdraw auth tr self s u a tok).err = none ↔
      (0 < a ∧ ∃ p, getPos s.positions u = some p ∧
        a ≤ p.deposited - p.withdrawn ∧ s.pool.isSome = true ∧
        tr ⟨tok, self, u, a⟩ = true)) ∧
    (∀ p, getPos s.positions u = some p →
      (withdraw auth tr self s u a tok).err = none →
      getPos (withdraw auth tr self s u a tok).state.positions u =
        some ⟨p.deposited, p.withdrawn + a, p.yield_earned⟩ ∧
      get_user_balance (withdraw auth tr self s u a tok).state u =
        get_user_balance s u - a) ∧
    ((withdraw auth tr self s u a tok).err ≠ none →
      (withdraw auth tr self s u a tok).state = s) ∧
    ((withdraw auth tr self s u a tok).err = some .InsufficientBalance ↔
      (0 < a ∧ ∃ p, getPos s.positions u = some p ∧
        p.deposited - p.withdrawn < a)) ∧
    ((withdraw auth tr self s u a tok).err = some .InvalidAmount ↔ a ≤ 0) ∧
    ((withdraw auth tr self s u a tok).err = some .NoDeposits ↔
      (0 < a ∧ getPos s.positions u = none)) := by
  refine ⟨⟨?_, ?_⟩, ?_, ?_, ⟨?_, ?_⟩, ⟨?_, ?_⟩, ⟨?_, ?_⟩⟩
  · intro h
    obtain ⟨p, pi, _, ha, hq, hle, hp, htr, _⟩ :=
      withdraw_run auth tr self s u a tok h
    exact ⟨ha, p, hq, hle, by simp [hp], htr⟩
  · rintro ⟨ha, p, hq, hle, hps, htr⟩
    have ha2 : ¬ a ≤ 0 := by omega
    have hb2 : ¬ a > p.deposited - p.withdrawn := by omega
    cases hp : s.pool with
    | none => rw [hp] at hps; simp at hps
    | some pi =>
        unfold withdraw
        simp [hauth, ha2, hq, hb2, hp, htr]
  · intro p hq h
    obtain ⟨p2, pi, _, ha, hq2, hle, hp, htr, hres⟩ :=
      withdraw_run auth tr self s u a tok h
    rw [hq] at hq2
    injection hq2 with hq2
    subst hq2
    constructor
    · rw [hres]
      exact getPos_setPos_self s.positions u _
    · rw [hres]
      unfold get_user_balance
      simp [getPos_setPos_self, hq]
      ring
  · intro h
    exact (withdraw_err_state auth tr self s u a tok h).1
  · intro h
    rcases withdraw_cases auth tr self s u a tok hauth with
      ⟨ha, hr⟩ | ⟨ha, hq, hr⟩ | ⟨ha, hex, hr⟩ | ⟨ha, hex, herr⟩
    · rw [hr] at h; simp at h
    · rw [hr] at h; simp at h
    · exact ⟨ha, hex⟩
    · rcases herr with h1 | h1 | h1 <;> rw [h1] at h <;> simp at h
  · rintro ⟨ha, p, hq, hlt⟩
    have ha2 : ¬ a ≤ 0 := by omega
    have hb2 : a > p.deposited - p.withdrawn := by omega
    unfold withdraw
    simp [hauth, ha2, hq, hb2]
  · intro h
    rcases withdraw_cases auth tr self s u a tok hauth with
      ⟨ha, _⟩ | ⟨_, _, hr⟩ | ⟨_, _, hr⟩ | ⟨_, _, herr⟩
    · exact ha
    · rw [hr] at h; simp at h
    · rw [hr] at h; simp at h
    · rcases herr with h1 | h1 | h1 <;> rw [h1] at h <;> simp at h
  · intro ha
    unfold withdraw
    simp [hauth, ha]
  · intro h
    rcases withdraw_cases auth tr self s u a tok hauth with
      ⟨_, hr⟩ | ⟨ha, hq, _⟩ | ⟨_, _, hr⟩ | ⟨_, _, herr⟩
    · rw [hr] at h; simp at h
    · exact ⟨ha, hq⟩
    · rw [hr] at h; simp at h
    · rcases herr with h1 | h1 | h1 <;> rw [h1] at h <;> simp at h
  · rintro ⟨ha, hq⟩
    have ha2 : ¬ a ≤ 0 := by omega
    unfold withdraw
    simp [hauth, ha2, hq]

/-- Witness for C1: on the fixture pool where user 1 has deposited 10,
`withdraw(1, 4)` succeeds, leaves the position at withdrawn = 4, and
moves the balance from 10 to 6; `withdraw(1, 11)` fails with
InsufficientBalance, `withdraw(1, 0)` with InvalidAmount, and
`withdraw(8, 3)` — user 8 has no position — with NoDeposits. -/
theorem C1_withdraw_spec_witness :
    (withdraw authAll trAll 0 sW 1 4 9).err = none ∧
    getPos (withdraw authAll trAll 0 sW 1 4 9).state.positions 1 =
      some ⟨10, 4, 0⟩ ∧
    get_user_balance (withdraw authAll trAll 0 sW 1 4 9).state 1 =
      get_user_balance sW 1 - 4 ∧
    (withdraw authAll trAll 0 sW 1 11 9).err = some .InsufficientBalance ∧
    (withdraw authAll trAll 0 sW 1 0 9).err = some .InvalidAmount ∧
    (withdraw authAll trAll 0 sW 8 3 9).err = some .NoDeposits := by
  have h4 := C1_withdraw_spec authAll trAll 0 sW 1 4 9 rfl
  have h11 := C1_withdraw_spec authAll trAll 0 sW 1 11 9 rfl
  have h0 := C1_withdraw_spec authAll trAll 0 sW 1 0 9 rfl
  have hnd := C1_withdraw_spec authAll trAll 0 sW 8 3 9 rfl
  have hok : (withdraw authAll trAll 0 sW 1 4 9).err = none :=
    h4.1.mpr ⟨by decide, ⟨10, 0, 0⟩, by decide, by decide, by decide, rfl⟩
  have heff := h4.2.1 ⟨10, 0, 0⟩ (by decide) hok
  exact ⟨hok, heff.1, heff.2,
    h11.2.2.2.1.mpr ⟨by decide, ⟨10, 0, 0⟩, by decide, by decide⟩,
    h0.2.2.2.2.1.mpr (by decide),
    hnd.2.2.2.2.2.mpr ⟨by decide, by decide⟩⟩

/-- C2 (amended): for an authorized `distribute_yield(admin, Y)` on an
initialized pool with percentage `p` whose charity transfer succeeds,
the donation is `Y*p/100` rounded toward zero (Rust `i128` division) —
equal to `floor(Y*p/100)` whenever `Y ≥ 0` — the remaining yield is
`Y - donation`, donation + remaining = `Y` always holds, and
`total_donated` and `total_yield` increase by exactly the donation and
the remaining yield respectively. -/
theorem C2_distribute_spec (auth : Address → Bool) (tr : Transfer → Bool)
    (self : Address) (s : ContractState) (adm : Address) (y : Int)
    (tok : Address) (p : PoolInfo) (hauth : auth adm = true)
    (hp : s.pool = some p)
    (htr : tr ⟨tok, self, p.charity,
      Int.tdiv (y * (p.donation_percentage : Int)) 100⟩ = true) :
    (distribute_yield auth tr self s adm y tok).err = none ∧
    (distribute_yield auth tr self s adm y tok).state =
      { s with
          pool := some { p with
            total_yield := p.total_yield +
              (y - Int.tdiv (y * (p.donation_percentage : Int)) 100),
            total_donated := p.total_donated +
              Int.tdiv (y * (p.donation_percentage : Int)) 100 } } ∧
    Int.tdiv (y * (p.donation_percentage : Int)) 100 +
      (y - Int.tdiv (y * (p.donation_percentage : Int)) 100) = y ∧
    (0 ≤ y → Int.tdiv (y * (p.donation_percentage : Int)) 100 =
      Int.fdiv (y * (p.donation_percentage : Int)) 100) := by
  refine ⟨?_, ?_, by ring, ?_⟩
  · by_cases hd : 0 < Int.tdiv (y * (p.donation_percentage : Int)) 100
    · unfold distribute_yield; simp [hauth, hp, hd, htr]
    · unfold distribute_yield; simp [hauth, hp, hd]
  · by_cases hd : 0 < Int.tdiv (y * (p.donation_percentage : Int)) 100
    · unfold distribute_yield; simp [hauth, hp, hd, htr]
    · unfold distribute_yield; simp [hauth, hp, hd]
  · intro hy
    exact tdiv_eq_fdiv_of_nonneg
      (mul_nonneg hy (Int.natCast_nonneg _)) (by norm_num)

/-- Witness for C2: distributing a yield of 200 on the fixture pool
(percentage 50) succeeds with donation 100 and remaining 100, matching
the spec's end-to-end example. -/
theorem C2_distribute_spec_witness :
    (distribute_yield authAll trAll 0 s50 2 200 9).err = none ∧
    (distribute_yield authAll trAll 0 s50 2 200 9).state.pool =
      some ⟨"POOL", 7, 50, 2, 0, 100, 100, true⟩ := by
  have h := C2_distribute_spec authAll trAll 0 s50 2 200 9 pool50 rfl rfl rfl
  refine ⟨h.1, ?_⟩
  rw [h.2.1]
  decide

/-- C8: every authorized deposit of a positive amount on an active,
initialized pool with a succeeding transfer increases the caller's
`deposited` by exactly the amount, `total_deposited` by exactly the
amount, and `get_user_balance` by exactly the amount; on a first
deposit the position is created at zero and then credited. -/
theorem C8_deposit_effects (auth : Address → Bool) (tr : Transfer → Bool)
    (self : Address) (s : ContractState) (u : Address) (a : Int)
    (tok : Address) (p : PoolInfo) (hauth : auth u = true) (ha : 0 < a)
    (hp : s.pool = some p) (hact : p.is_active = true)
    (htr : tr ⟨tok, u, self, a⟩ = true) :
    (deposit auth tr self s u a tok).err = none ∧
    get_user_position (deposit auth tr self s u a tok).state u =
      ⟨(get_user_position s u).deposited + a,
        (get_user_position s u).withdrawn,
        (get_user_position s u).yield_earned⟩ ∧
    (deposit auth tr self s u a tok).state.pool =
      some { p with total_deposited := p.total_deposited + a } ∧
    get_user_balance (deposit auth tr self s u a tok).state u =
      get_user_balance s u + a ∧
    (getPos s.positions u = none →
      get_user_position (deposit auth tr self s u a tok).state u = ⟨a, 0, 0⟩) := by
  have ha2 : ¬ a ≤ 0 := by omega
  have hr : deposit auth tr self s u a tok =
      ⟨{ s with
          positions := setPos s.positions u
            ⟨(get_user_position s u).deposited + a,
              (get_user_position s u).withdrawn,
              (get_user_position s u).yield_earned⟩,
          pool := some { p with total_deposited := p.total_deposited + a } },
        [⟨tok, u, self, a⟩], none⟩ := by
    unfold deposit get_user_position
    simp [hauth, hp, hact, htr, ha2]
  refine ⟨by rw [hr], ?_, by rw [hr], ?_, ?_⟩
  · rw [hr]
    unfold get_user_position
    simp [getPos_setPos_self]
  · rw [hr]
    unfold get_user_balance get_user_position
    simp [getPos_setPos_self]
    ring
  · intro hq
    rw [hr]
    unfold get_user_position
    simp [getPos_setPos_self, hq]

/-- Witness for C8: user 5's first deposit of 1000 on the fixture pool
succeeds, creates the position ⟨1000, 0, 0⟩, raises `total_deposited`
to 1000 and the balance from 0 to 1000. -/
theorem C8_deposit_effects_witness :
    (deposit authAll trAll 0 s50 5 1000 9).err = none ∧
    get_user_position (deposit authAll trAll 0 s50 5 1000 9).state 5 =
      ⟨1000, 0, 0⟩ ∧
    get_user_balance (deposit authAll trAll 0 s50 5 1000 9).state 5 =
      get_user_balance s50 5 + 1000 := by
  have h := C8_deposit_effects authAll trAll 0 s50 5 1000 9 pool50
    rfl (by decide) rfl rfl rfl
  exact ⟨h.1, h.2.2.2.2 rfl, h.2.2.2.1⟩

/-- C9: pause and resume by a caller other than the creator fail with
Unauthorized and change nothing; after the creator pauses, any
authorized positive deposit fails with PoolPaused; after the creator
then resumes, such a deposit succeeds again (when its transfer
succeeds). -/
theorem C9_pause_resume (auth : Address → Bool) (tr : Transfer → Bool)
    (self : Address) (s : ContractState) (adm u : Address) (a : Int)
    (tok : Address) (p : PoolInfo) (hauth : auth adm = true)
    (hauthu : auth u = true) (hp : s.pool = some p) :
    (adm ≠ p.creator →
      pause_pool auth s adm = ⟨s, [], some .Unauthorized⟩ ∧
      resume_pool auth s adm = ⟨s, [], some .Unauthorized⟩) ∧
    (adm = p.creator → 0 < a →
      (pause_pool auth s adm).err = none ∧
      (deposit auth tr self (pause_pool auth s adm).state u a tok).err =
        some .PoolPaused ∧
      (resume_pool auth (pause_pool auth s adm).state adm).err = none ∧
      (tr ⟨tok, u, self, a⟩ = true →
        (deposit auth tr self
          (resume_pool auth (pause_pool auth s adm).state adm).state
          u a tok).err = none)) := by
  constructor
  · intro hcr
    constructor
    · unfold pause_pool; simp [hauth, hp, hcr]
    · unfold resume_pool; simp [hauth, hp, hcr]
  · intro hcr ha
    subst hcr
    have ha2 : ¬ a ≤ 0 := by omega
    have hpause : pause_pool auth s p.creator =
        ⟨{ s with pool := some { p with is_active := false } }, [], none⟩ := by
      unfold pause_pool; simp [hauth, hp]
    have hresume : resume_pool auth
        { s with pool := some { p with is_active := false } } p.creator =
        ⟨{ s with pool := some { p with is_active := true } }, [], none⟩ := by
      unfold resume_pool; simp [hauth]
    refine ⟨by rw [hpause], ?_, ?_, ?_⟩
    · rw [hpause]
      unfold deposit
      simp [hauthu, ha2]
    · rw [hpause, hresume]
    · intro htr
      rw [hpause, hresume]
      unfold deposit
      simp [hauthu, ha2, htr]

/-- Witness for C9: on the fixture pool (creator 2), pause and resume
by address 3 fail with Unauthorized and change nothing; after pause by
2, deposit(1, 5) fails with PoolPaused; after resume by 2, it
succeeds. -/
theorem C9_pause_resume_witness :
    pause_pool authAll s50 3 = ⟨s50, [], some .Unauthorized⟩ ∧
    resume_pool authAll s50 3 = ⟨s50, [], some .Unauthorized⟩ ∧
    (pause_pool authAll s50 2).err = none ∧
    (deposit authAll trAll 0 (pause_pool authAll s50 2).state 1 5 9).err =
      some .PoolPaused ∧
    (resume_pool authAll (pause_pool authAll s50 2).state 2).err = none ∧
    (deposit authAll trAll 0
      (resume_pool authAll (pause_pool authAll s50 2).state 2).state
      1 5 9).err = none := by
  have h1 := (C9_pause_resume authAll trAll 0 s50 3 1 5 9 pool50
    rfl rfl rfl).1 (by decide)
  have h2 := (C9_pause_resume authAll trAll 0 s50 2 1 5 9 pool50
    rfl rfl rfl).2 rfl (by decide)
  exact ⟨h1.1, h1.2, h2.1, h2.2.1, h2.2.2.1, h2.2.2.2 rfl⟩

/-- C10: in every state reachable from initialization by successful
operations, the pool exists and `total_deposited` equals the sum over
all stored positions of `deposited - withdrawn`: initialization sets
both sides to zero, deposit adds the amount to both sides, withdraw
subtracts it from both sides, and the remaining operations touch
neither side. -/
theorem C10_total_deposited_invariant (s : ContractState)
    (h : Reachable s) :
    ∃ p, s.pool = some p ∧ p.total_deposited = sumNet s.positions := by
  induction h with
  | base n c dp cr tok herr =>
      obtain ⟨hnone, hdp, hres⟩ := init_pool_run emptyState n c dp cr tok herr
      rw [hres]
      exact ⟨⟨n, c, dp, cr, 0, 0, 0, true⟩, rfl, by simp [emptyState, sumNet]⟩
  | step s1 s2 hr hstep ih =>
      obtain ⟨p, hp, hsum⟩ := ih
      cases hstep with
      | ofInit s1 n c dp cr tok herr =>
          obtain ⟨hnone, _, _⟩ := init_pool_run s1 n c dp cr tok herr
          rw [hp] at hnone
          cases hnone
      | ofDeposit auth tr self s1 u a tok herr =>
          obtain ⟨pi, _, ha, hp2, _, _, hres⟩ :=
            deposit_run auth tr self s1 u a tok herr
          rw [hp] at hp2
          injection hp2 with hp2
          subst hp2
          rw [hres]
          refine ⟨_, rfl, ?_⟩
          show p.total_deposited + a = sumNet (setPos s1.positions u _)
          cases hq : getPos s1.positions u with
          | none =>
              rw [sumNet_setPos_none s1.positions u _ hq]
              unfold get_user_position
              simp [hq]
              omega
          | some w =>
              rw [sumNet_setPos_some s1.positions u _ w hq]
              unfold get_user_position
              simp [hq]
              omega
      | ofWithdraw auth tr self s1 u a tok herr =>
          obtain ⟨w, pi, _, ha, hq, hle, hp2, _, hres⟩ :=
            withdraw_run auth tr self s1 u a tok herr
          rw [hp] at hp2
          injection hp2 with hp2
          subst hp2
          rw [hres]
          refine ⟨_, rfl, ?_⟩
          show p.total_deposited - a = sumNet (setPos s1.positions u _)
          rw [sumNet_setPos_some s1.positions u _ w hq]
          simp
          omega
      | ofDistribute auth tr self s1 adm y tok herr =>
          obtain ⟨pi, _, hp2, hres⟩ :=
            distribute_run auth tr self s1 adm y tok herr
          rw [hp] at hp2
          injection hp2 with hp2
          subst hp2
          rw [hres]
          exact ⟨_, rfl, hsum⟩
      | ofPause auth s1 adm herr =>
          obtain ⟨pi, _, hp2, _, hres⟩ := pause_run auth s1 adm herr
          rw [hp] at hp2
          injection hp2 with hp2
          subst hp2
          rw [hres]
          exact ⟨_, rfl, hsum⟩
      | ofResume auth s1 adm herr =>
          obtain ⟨pi, _, hp2, _, hres⟩ := resume_run auth s1 adm herr
          rw [hp] at hp2
          injection hp2 with hp2
          subst hp2
          rw [hres]
          exact ⟨_, rfl, hsum⟩

/-- Witness for C10: the invariant instantiated at a concrete reachable
state, the fixture pool after one deposit of 10 by user 1. -/
theorem C10_total_deposited_invariant_witness :
    ∃ p, sW.pool = some p ∧ p.total_deposited = sumNet sW.positions :=
  C10_total_deposited_invariant sW
    (Reachable.step s50 sW
      (Reachable.base "POOL" 7 50 2 9 (by decide))
      (Step.ofDeposit authAll trAll 0 s50 1 10 9 (by decide)))

end ImpactPools
